import Mathlib

/-
Shallow embedding of the dependency-resolution and environment-provisioning
subsystem of the Repoduce-Me repository, together with proofs settling the
frozen claims about it.

Embedded source files:
* `src/requirements_extract.py` — import scanning, classification, manifest
  writing (`RequirementsExtractor`).
* `src/venv_create.py` — `execute_subprocess`, `filter_requirements`, and the
  entry cleanup of `create_and_install_venv`.
* `src/downloader.py` — `Downloader._cleanup_single_dir` retry loop.

Python strings are modelled as `String` / `List Char`; Python `re` behaviour
on the two anchored patterns is modelled by structural functions on
`List Char`; the filesystem effects of the stateful functions are made
explicit (written files are returned as data).  Machine-level details
(mtimes, encodings, subprocess timing) are outside the embedding.
-/

/- ## Character classes

`isPySpace` models the Python `\s` character class and `str.strip()` on the
ASCII range (the inputs relevant here are ASCII source lines).
`isIdentChar` models the regex class `[a-zA-Z0-9_]` (`Char.isAlpha` and
`Char.isDigit` are ASCII-only, matching the regex class exactly).
-/

def isPySpace (c : Char) : Bool :=
  c == ' ' || c == '\t' || c == '\n' || c == '\r' || c == '\x0b' || c == '\x0c'

def isIdentChar (c : Char) : Bool :=
  c.isAlpha || c.isDigit || c == '_'

/- ## Lexicographic order on strings

The Python `sorted` on `str` compares strings lexicographically by code point.
`lexLe` is that comparison, written structurally so that it evaluates by
kernel reduction. -/

def lexLe : List Char → List Char → Bool
  | [], _ => true
  | _ :: _, [] => false
  | a :: as, b :: bs => if a = b then lexLe as bs else decide (a < b)

def strLe (a b : String) : Bool := lexLe a.data b.data

def strLeP (a b : String) : Prop := strLe a b = true

instance : DecidableRel strLeP := fun a b => inferInstanceAs (Decidable (strLe a b = true))

theorem lexLe_total : ∀ as bs : List Char, lexLe as bs = true ∨ lexLe bs as = true
  | [], _ => Or.inl rfl
  | _ :: _, [] => Or.inr rfl
  | a :: as, b :: bs => by
    by_cases h : a = b
    · subst h
      simpa [lexLe] using lexLe_total as bs
    · rcases lt_or_gt_of_ne h with hlt | hgt
      · exact Or.inl (by simp [lexLe, h, hlt])
      · exact Or.inr (by simp [lexLe, Ne.symm h, hgt])

theorem lexLe_trans : ∀ as bs cs : List Char,
    lexLe as bs = true → lexLe bs cs = true → lexLe as cs = true
  | [], _, _, _, _ => rfl
  | a :: as, [], _, h, _ => by simp [lexLe] at h
  | _ :: _, _ :: _, [], _, h => by simp [lexLe] at h
  | a :: as, b :: bs, c :: cs, h1, h2 => by
    by_cases hab : a = b <;> by_cases hbc : b = c
    · subst hab; subst hbc
      simp only [lexLe, if_pos rfl] at h1 h2 ⊢
      exact lexLe_trans as bs cs h1 h2
    · subst hab
      simp only [lexLe, if_pos rfl] at h1
      simpa [lexLe, hbc] using h2
    · subst hbc
      simpa [lexLe, hab] using h1
    · simp only [lexLe, if_neg hab] at h1
      simp only [lexLe, if_neg hbc] at h2
      have hac : a < c := lt_trans (of_decide_eq_true h1) (of_decide_eq_true h2)
      have hne : a ≠ c := ne_of_lt hac
      simp [lexLe, hne, hac]

instance : IsTotal String strLeP := ⟨fun a b => lexLe_total a.data b.data⟩

instance : IsTrans String strLeP := ⟨fun a b c => lexLe_trans a.data b.data c.data⟩

/- ## Splitting text into lines

`splitLinesL` models the Python `str.splitlines()` for the line boundaries
`\n`, `\r\n` and `\r` (the boundaries that occur in the files this system
reads and writes). -/

def splitLinesL : List Char → List (List Char)
  | [] => []
  | '\n' :: cs => [] :: splitLinesL cs
  | '\r' :: '\n' :: cs => [] :: splitLinesL cs
  | '\r' :: cs => [] :: splitLinesL cs
  | c :: cs =>
    match splitLinesL cs with
    | [] => [[c]]
    | l :: ls => (c :: l) :: ls

/- ## `RequirementsExtractor._extract_module_name`

The source tries, in order, the two anchored patterns
`^\s*import\s+([a-zA-Z0-9_]+)` and `^\s*from\s+([a-zA-Z0-9_]+)` and returns
the first capture, or `None`.  `stripLit` matches a literal keyword and
returns the remainder; `afterKeyword` models `\s+([a-zA-Z0-9_]+)`. -/

def stripLit : List Char → List Char → Option (List Char)
  | [], rest => some rest
  | _ :: _, [] => none
  | k :: ks, c :: cs => if c = k then stripLit ks cs else none

def afterKeyword : List Char → Option String
  | [] => none
  | c :: rest =>
    if isPySpace c then
      let name := ((c :: rest).dropWhile isPySpace).takeWhile isIdentChar
      if name.isEmpty then none else some ⟨name⟩
    else none

def matchKeywordName (kw : List Char) (line : List Char) : Option String :=
  match stripLit kw (line.dropWhile isPySpace) with
  | none => none
  | some rest => afterKeyword rest

def extract_module_name (line : String) : Option String :=
  match matchKeywordName "import".data line.data with
  | some m => some m
  | none => matchKeywordName "from".data line.data

/- ## `RequirementsExtractor` tables

Transcribed from the source.  The Python `set` literal in the source lists
the entry xml twice; the duplicate is kept (membership is unaffected). -/

def STANDARD_LIBRARY : List String :=
  ["__future__", "__main__", "abc", "argparse", "array", "asyncio",
   "base64", "builtins", "csv", "collections", "copy", "ctypes",
   "datetime", "decimal", "json", "math", "os", "pathlib", "re",
   "shutil", "sys", "subprocess", "time", "typing", "warnings",
   "threading", "tempfile", "unittest", "xml", "zipfile",
   "itertools", "functools", "logging", "io", "random", "hashlib",
   "queue", "socket", "http", "ssl", "uuid", "operator", "pickle",
   "xml", "configparser"]

def MODULE_TO_PACKAGE : List (String × String) :=
  [("yaml", "pyyaml"),
   ("PIL", "Pillow"),
   ("cv2", "opencv-python"),
   ("skimage", "scikit-image"),
   ("scipy", "scipy"),
   ("matplotlib", "matplotlib"),
   ("numpy", "numpy"),
   ("torch", "torch"),
   ("tensorflow", "tensorflow"),
   ("pandas", "pandas"),
   ("flask", "flask"),
   ("django", "django"),
   ("requests", "requests"),
   ("bs4", "beautifulsoup4"),
   ("lxml", "lxml"),
   ("tqdm", "tqdm"),
   ("seaborn", "seaborn"),
   ("sklearn", "scikit-learn"),
   ("six", "six"),
   ("cffi", "cffi")]

def DEBUG_BLACKLIST : List String :=
  ["enum", "enum34", "pkg_resources", "setuptools", "distutils",
   "astropilot", "concurrent", "contextlib"]

/-- Model of `RequirementsExtractor._is_external`: a module survives iff it is in
neither exclusion table. -/
def isExternal (m : String) : Bool :=
  decide (m ∉ STANDARD_LIBRARY) && decide (m ∉ DEBUG_BLACKLIST)

/-- Model of the dictionary access `MODULE_TO_PACKAGE.get(dep, dep)`: look the module up in the mapping
table, defaulting to the module name itself. -/
def mapModule (m : String) : String :=
  (MODULE_TO_PACKAGE.lookup m).getD m

/-- Model of `RequirementsExtractor._map_to_package_names`: filter to external
modules, remap through the table into a set (`dedup`), and return the
sorted list.  The Python function receives a `set`; it is modelled on the
accumulated occurrence list, of which the set in the source is the image under
`dedup`. -/
def map_to_package_names (dependencies : List String) : List String :=
  List.insertionSort strLeP (((dependencies.filter isExternal).map mapModule).dedup)

/- ## The repository tree walk (`RequirementsExtractor.analyze_repo`)

`os.walk` over a concrete directory tree.  The files of a directory are
visited first, then its subdirectories in order, after the pruning, done in the source,
of the `dirs` list: a subdirectory named `.venv_repro` (`VENV_DIR_NAME`) is
always removed, and a subdirectory named `tmp` (`TMP_DIR`) is removed
unless the directory being walked is itself named `tmp`. -/

def TMP_DIR : String := "tmp"

def VENV_DIR_NAME : String := ".venv_repro"

inductive FsTree where
  | file (name content : String)
  | dir (name : String) (entries : List FsTree)

/-- Subdirectory pruning of the walk loop of `analyze_repo` (lines 167-170 of
`requirements_extract.py`). -/
def keepSubdir (curName subName : String) : Bool :=
  !(subName == VENV_DIR_NAME) && !(subName == TMP_DIR && !(curName == TMP_DIR))

mutual
def walkDir (curName : String) (entries : List FsTree) : List (String × String) :=
  entries.filterMap (fun e => match e with | .file n c => some (n, c) | .dir _ _ => none) ++
    walkSubdirs curName entries

def walkSubdirs (curName : String) : List FsTree → List (String × String)
  | [] => []
  | .file _ _ :: rest => walkSubdirs curName rest
  | .dir n ents :: rest =>
    (if keepSubdir curName n then walkDir n ents else []) ++ walkSubdirs curName rest
end

/-- Filename test of the walk loop: only names ending in `.py` are analyzed. -/
def endsWithPy (name : String) : Bool :=
  (stripLit ".py".data.reverse name.data.reverse).isSome

/-- Filenames skipped by `RequirementsExtractor._analyze_file`
(compared lowercased). -/
def skippedAnalysisFile (name : String) : Bool :=
  decide (String.mk (name.data.map Char.toLower) ∈
    (["setup.py", "requirements.txt", "test.py", "conftest.py"] : List String))

/-- Line scan of `_analyze_file`: the extracted module name of every line is
accumulated.  File contents are given already decoded (the source falls
back from UTF-8 to Latin-1 and skips undecodable files; the embedding
models readable files). -/
def analyze_file_deps (content : String) : List String :=
  (splitLinesL content.data).filterMap (fun l => extract_module_name ⟨l⟩)

/-- The module names accumulated into `self.all_dependencies` by one call
of `analyze_repo`, in visit order (the source stores them in a set; every
later consumer is order-insensitive, see `map_to_package_names`). -/
def scanRepo (repo : FsTree) : List String :=
  (match repo with
    | .dir n ents => walkDir n ents
    | .file _ _ => []).flatMap
    (fun fc => if endsWithPy fc.1 && !skippedAnalysisFile fc.1 then analyze_file_deps fc.2 else [])

/-- In-memory state of a `RequirementsExtractor` instance. -/
structure ExtractorState where
  all_dependencies : List String

/-- Model of `RequirementsExtractor._write_requirements_file`: the bytes written to
`requirements.txt`, one package per line. -/
def write_requirements_content (dependencies : List String) : String :=
  String.join (dependencies.map (fun d => d ++ "\n"))

/-- Model of `RequirementsExtractor.analyze_repo`: clears `self.all_dependencies`
(step 1 of the source), walks the tree accumulating module names (step 2),
classifies them (step 3) and unconditionally writes the requirements file
(step 4).  Returns the post-call state and the written file content.  The
source method returns `None`; in particular it returns no marker value of
any kind. -/
def analyze_repo (_state : ExtractorState) (repo : FsTree) : ExtractorState × String :=
  let deps := scanRepo repo
  let final_dependencies := map_to_package_names deps
  (⟨deps⟩, write_requirements_content final_dependencies)

/-- Presence of a file with the given name among the immediate entries of
the root directory (used to state what `analyze_repo` ignores). -/
def rootHasFile (repo : FsTree) (fname : String) : Bool :=
  match repo with
  | .dir _ ents => ents.any (fun e => match e with | .file n _ => n == fname | .dir _ _ => false)
  | .file _ _ => false

/- ## `venv_create.filter_requirements`

Python `str.strip` (`stripL`), the bare package name before the first of
the delimiters `= > < ~` (`bareNameL`, from the
source expression: `re.split` on the delimiter class applied to the stripped
line, first piece, stripped again), and the loop that keeps a
line iff its bare name is non-empty, does not start with `#`, and is not in
`{ast, enum34}`. -/

def isDelim (c : Char) : Bool :=
  c == '=' || c == '>' || c == '<' || c == '~'

/-- Removal of trailing `\s` characters (the right half of `str.strip`). -/
def rstripL : List Char → List Char
  | [] => []
  | c :: cs =>
    match rstripL cs with
    | [] => if isPySpace c then [] else [c]
    | l => c :: l

/-- Python `str.strip()` on the ASCII range. -/
def stripL (l : List Char) : List Char := rstripL (l.dropWhile isPySpace)

/-- Model of the source expression `re.split` on the delimiter class applied
to the stripped line, taking the first piece and stripping it. -/
def bareNameL (line : List Char) : List Char :=
  stripL ((stripL line).takeWhile (fun c => !isDelim c))

/-- Loop body test of `filter_requirements`: the line survives iff its bare
package name is non-empty, does not start with `#`, and is not in
`packages_to_skip = {ast, enum34}`. -/
def lineKept (line : List Char) : Bool :=
  let p := bareNameL line
  !p.isEmpty && !(p.head? == some '#') &&
    !(p = "ast".data) && !(p = "enum34".data)

/-- The filtering loop of `filter_requirements`, over the lines of the
manifest. -/
def filter_lines : List (List Char) → List (List Char)
  | [] => []
  | line :: rest =>
    if lineKept line then line :: filter_lines rest else filter_lines rest

/-- Location of a file: containing directory and base name
(`requirements_file.parent / "requirements_filtered.txt"` keeps the
directory and replaces the base name). -/
structure FileLoc where
  dir : String
  base : String
deriving DecidableEq

/-- Model of `venv_create.filter_requirements` with its filesystem effects
explicit:
`content` is the manifest content (`none` when the file does not exist),
`readOk`/`writeOk` say whether `read_text`/`write_text` succeed (a failing
call raises, which the source catches).  Returns the path the function
returns together with the list of files it successfully writes.  Source
behaviour: missing file → return the input path, nothing written; read
error → return the input path; write error → return the input path;
otherwise write the kept lines, joined with `\n`, to the sibling file
`requirements_filtered.txt` and return that path. -/
def filter_requirements (requirements_file : FileLoc) (content : Option String)
    (readOk writeOk : Bool) : FileLoc × List (FileLoc × String) :=
  match content with
  | none => (requirements_file, [])
  | some text =>
    if readOk then
      let filtered_lines := filter_lines (splitLinesL text.data)
      let filtered_file : FileLoc := ⟨requirements_file.dir, "requirements_filtered.txt"⟩
      if writeOk then
        (filtered_file, [(filtered_file, ⟨List.intercalate "\n".data filtered_lines⟩)])
      else
        (requirements_file, [])
    else (requirements_file, [])

/- ## `venv_create.execute_subprocess`

The source runs the command and, on any failure, prints a diagnostic to
stderr and raises `RuntimeError(error_message + " failed.")`.  The outcome
of the `subprocess.run` call is a parameter; the effect records the raised
exception message (if any) and the lines printed to stderr.  (In the
`[FATAL]` line the source quotes the word python; the quotes are omitted
here.) -/

inductive SubprocessOutcome where
  | success
  | calledProcessError (stderr : String)
  | fileNotFound (msg : String)
  | otherError (msg : String)

structure SubprocessEffect where
  raisedRuntimeError : Option String
  stderrLines : List String

def execute_subprocess (command : List String) (error_message : String) :
    SubprocessOutcome → SubprocessEffect
  | .success => ⟨none, []⟩
  | .calledProcessError stderr =>
    ⟨some (error_message ++ " failed."),
     ["[ERROR] " ++ error_message ++ " (External command failed).",
      "Command: " ++ " ".intercalate command,
      "Stderr:\n" ++ stderr]⟩
  | .fileNotFound msg =>
    ⟨some (error_message ++ " failed."),
     ["[FATAL] System executable not found (e.g. python): " ++ msg]⟩
  | .otherError msg =>
    ⟨some (error_message ++ " failed."),
     ["[ERROR] Unexpected error: " ++ msg]⟩

/- ## Entry cleanup of `venv_create.create_and_install_venv`

Lines 100-107: if the venv directory exists, one `shutil.rmtree` call is
attempted; any exception is caught and printed as a warning, and execution
falls through to venv creation in every case. -/

structure EntryCleanupEffect where
  deleteAttempts : Nat
  proceeds : Bool
  warned : Bool

def provisioner_entry_cleanup (venvExists rmtreeOk : Bool) : EntryCleanupEffect :=
  if venvExists then ⟨1, true, !rmtreeOk⟩ else ⟨0, true, false⟩

/- ## `Downloader._cleanup_single_dir`

The bounded retry loop: attempts `1 .. max_retries`; a successful
`shutil.rmtree` (run with the permission-relaxing `onerror` handler, whose
effect is folded into `outcome`) returns `True`; a failed non-final attempt
sleeps `retry_delay` seconds and retries; a failed final attempt re-raises.
With `max_retries = 0` the loop body never runs and the function returns
`False`.  `outcome i` says whether the deletion succeeds on attempt `i`;
`.error ()` models the re-raised exception. -/

def cleanup_loop (outcome : Nat → Bool) : Nat → Nat → Except Unit Bool
  | _, 0 => .ok false
  | attempt, remaining + 1 =>
    if outcome attempt then .ok true
    else if remaining = 0 then .error ()
    else cleanup_loop outcome (attempt + 1) remaining

def cleanup_single_dir (dirExists : Bool) (outcome : Nat → Bool) (max_retries : Nat) :
    Except Unit Bool :=
  if dirExists then cleanup_loop outcome 1 max_retries else .ok true

/- ## Helper lemmas -/

theorem lookup_mem_snd (l : List (String × String)) (k v : String)
    (h : l.lookup k = some v) : v ∈ l.map Prod.snd := by
  induction l with
  | nil => simp [List.lookup] at h
  | cons p rest ih =>
    rw [List.lookup] at h
    split at h
    · simp at h
      simp [← h]
    · simp [ih h]

/-- A module that survives `isExternal` is mapped by `mapModule` to a
package name that is in neither exclusion table: a table hit lands in the
(checked) range of `MODULE_TO_PACKAGE`, and a miss keeps the module name,
which `isExternal` already cleared. -/
theorem mapModule_external (m : String) (h : isExternal m = true) :
    mapModule m ∉ STANDARD_LIBRARY ∧ mapModule m ∉ DEBUG_BLACKLIST := by
  have hm : m ∉ STANDARD_LIBRARY ∧ m ∉ DEBUG_BLACKLIST := by
    simpa [isExternal, Bool.and_eq_true, decide_eq_true_eq] using h
  unfold mapModule
  cases hl : MODULE_TO_PACKAGE.lookup m with
  | none => simpa using hm
  | some p =>
    have hrange : ∀ v ∈ MODULE_TO_PACKAGE.map Prod.snd,
        v ∉ STANDARD_LIBRARY ∧ v ∉ DEBUG_BLACKLIST := by decide
    simpa using hrange p (lookup_mem_snd MODULE_TO_PACKAGE m p hl)

theorem space_not_ident (c : Char) (h : isPySpace c = true) : isIdentChar c = false := by
  simp only [isPySpace, Bool.or_eq_true, beq_iff_eq] at h
  obtain ((((h | h) | h) | h) | h) | h := h <;> subst h <;> decide

theorem ident_not_space (c : Char) (h : isIdentChar c = true) : isPySpace c = false := by
  cases hs : isPySpace c
  · rfl
  · have hni := space_not_ident c hs
    rw [h] at hni
    exact absurd hni (by decide)

theorem takeWhile_append_stop (p : Char → Bool) :
    ∀ (l₁ l₂ : List Char), (∀ c ∈ l₁, p c = true) →
      (∀ x, l₂.head? = some x → p x = false) →
      (l₁ ++ l₂).takeWhile p = l₁
  | [], l₂, _, h2 => by
    cases l₂ with
    | nil => rfl
    | cons x xs => simp [List.takeWhile_cons, h2 x rfl]
  | a :: l₁, l₂, h1, h2 => by
    simp only [List.cons_append, List.takeWhile_cons, h1 a (by simp), if_pos]
    rw [takeWhile_append_stop p l₁ l₂ (fun c hc => h1 c (by simp [hc])) h2]

theorem stripLit_eq_append : ∀ (kw l rest : List Char),
    stripLit kw l = some rest → l = kw ++ rest
  | [], l, rest, h => by
    simp only [stripLit, Option.some.injEq] at h
    simp [h]
  | _ :: _, [], _, h => by simp [stripLit] at h
  | k :: ks, c :: cs, rest, h => by
    simp only [stripLit] at h
    by_cases hck : c = k
    · rw [if_pos hck] at h
      rw [List.cons_append, ← stripLit_eq_append ks cs rest h, hck]
    · rw [if_neg hck] at h
      exact absurd h (by simp)

theorem stripLit_self : ∀ (ks rest : List Char), stripLit ks (ks ++ rest) = some rest
  | [], _ => rfl
  | a :: as, rest => by simp [stripLit, stripLit_self as rest]

/-- Core computation behind C6: the keyword-then-name matcher on input
`kw ++ space ++ ident-run ++ stop-tail` captures exactly the ident run. -/
theorem matchKeywordName_exact (kw pkg tailL : List Char) (c : Char)
    (hkw : ∀ x ∈ kw, isPySpace x = false) (hkwne : kw ≠ [])
    (hc : isPySpace c = true)
    (hpkg : pkg ≠ []) (hid : ∀ x ∈ pkg, isIdentChar x = true)
    (hstop : ∀ x, tailL.head? = some x → isIdentChar x = false) :
    matchKeywordName kw (kw ++ c :: (pkg ++ tailL)) = some ⟨pkg⟩ := by
  unfold matchKeywordName
  have hdrop : (kw ++ c :: (pkg ++ tailL)).dropWhile isPySpace = kw ++ c :: (pkg ++ tailL) := by
    cases kw with
    | nil => exact absurd rfl hkwne
    | cons k ks =>
      rw [List.cons_append, List.dropWhile_cons, hkw k (by simp)]
      simp
  rw [hdrop, stripLit_self]
  cases pkg with
  | nil => exact absurd rfl hpkg
  | cons a ps =>
    have ha : isIdentChar a = true := hid a (by simp)
    have hna : isPySpace a = false := ident_not_space a ha
    have htake : List.takeWhile isIdentChar (a :: (ps ++ tailL)) = a :: ps := by
      have hts := takeWhile_append_stop isIdentChar (a :: ps) tailL hid hstop
      simpa using hts
    simp only [afterKeyword, if_pos hc]
    rw [List.dropWhile_cons, if_pos hc, List.cons_append, List.dropWhile_cons,
      if_neg (show ¬(isPySpace a = true) by rw [hna]; decide), htake]
    simp

theorem matchKeywordName_first_token (kw : List Char) (l : List Char) (m : String)
    (hkw : ∀ x ∈ kw, isPySpace x = false)
    (h : matchKeywordName kw l = some m) :
    (l.dropWhile isPySpace).takeWhile (fun c => !isPySpace c) = kw := by
  unfold matchKeywordName at h
  cases hs : stripLit kw (l.dropWhile isPySpace) with
  | none => rw [hs] at h; exact absurd h (by simp)
  | some rest =>
    rw [hs] at h
    have hl : l.dropWhile isPySpace = kw ++ rest := stripLit_eq_append kw _ rest hs
    cases rest with
    | nil => simp [afterKeyword] at h
    | cons c cs =>
      by_cases hc : isPySpace c
      · rw [hl]
        exact takeWhile_append_stop _ kw (c :: cs)
          (fun x hx => by simp [hkw x hx])
          (fun x hx => by
            rw [List.head?_cons] at hx
            injection hx with e
            subst e
            simp [hc])
      · simp [afterKeyword, hc] at h

theorem dropWhile_head_false (p : Char → Bool) :
    ∀ (l : List Char) (c : Char), (l.dropWhile p).head? = some c → p c = false
  | [], c, h => by simp [List.dropWhile] at h
  | a :: l, c, h => by
    rw [List.dropWhile_cons] at h
    by_cases ha : p a
    · rw [if_pos ha] at h
      exact dropWhile_head_false p l c h
    · rw [if_neg ha] at h
      rw [List.head?_cons] at h
      injection h with e
      subst e
      exact Bool.of_not_eq_true ha

theorem rstripL_head (l : List Char) (h : rstripL l ≠ []) : (rstripL l).head? = l.head? := by
  match l with
  | [] => exact absurd rfl h
  | c :: cs =>
    cases hr : rstripL cs with
    | nil =>
      by_cases hc : isPySpace c
      · exfalso
        apply h
        simp [rstripL, hr, hc]
      · have he : rstripL (c :: cs) = [c] := by simp [rstripL, hr, hc]
        rw [he, List.head?_cons, List.head?_cons]
    | cons x xs =>
      have he : rstripL (c :: cs) = c :: x :: xs := by simp [rstripL, hr]
      rw [he, List.head?_cons, List.head?_cons]

theorem stripL_head_not_space (l : List Char) (h : stripL l ≠ []) :
    ∃ c, (stripL l).head? = some c ∧ isPySpace c = false := by
  unfold stripL at h ⊢
  have h1 := rstripL_head (l.dropWhile isPySpace) h
  cases hh : (rstripL (l.dropWhile isPySpace)).head? with
  | none =>
    rw [List.head?_eq_none_iff] at hh
    exact absurd hh h
  | some c =>
    refine ⟨c, rfl, ?_⟩
    rw [hh] at h1
    exact dropWhile_head_false isPySpace l c h1.symm

/-- When the bare package name of a line is non-empty it starts with the
same character as the stripped line (so the comment test of the source on the
bare name and a comment test on the stripped line agree). -/
theorem bare_head (l : List Char) (hb : bareNameL l ≠ []) :
    (bareNameL l).head? = (stripL l).head? ∧ stripL l ≠ [] := by
  have hs : stripL l ≠ [] := by
    intro he
    apply hb
    unfold bareNameL
    rw [he]
    rfl
  obtain ⟨c, hc, hcs⟩ := stripL_head_not_space l hs
  obtain ⟨t, ht⟩ : ∃ t, stripL l = c :: t := by
    cases hsl : stripL l with
    | nil => exact absurd hsl hs
    | cons a t =>
      rw [hsl, List.head?_cons] at hc
      injection hc with e
      exact ⟨t, by rw [e]⟩
  by_cases hdc : isDelim c
  · exfalso
    apply hb
    unfold bareNameL
    rw [ht, List.takeWhile_cons, if_neg (show ¬((!isDelim c) = true) by rw [hdc]; decide)]
    rfl
  · have hdf : isDelim c = false := Bool.of_not_eq_true hdc
    have h1 : bareNameL l = rstripL (c :: List.takeWhile (fun x => !isDelim x) t) := by
      unfold bareNameL
      rw [ht, List.takeWhile_cons, if_pos (show (!isDelim c) = true by rw [hdf]; rfl)]
      unfold stripL
      rw [List.dropWhile_cons, if_neg (show ¬(isPySpace c = true) by rw [hcs]; decide)]
    rw [h1] at hb ⊢
    rw [rstripL_head _ hb, List.head?_cons, ht, List.head?_cons]
    exact ⟨rfl, by simp⟩

/-- Survivor predicate transcribed from the claim wording for C8: keep the
non-blank, non-comment lines whose bare package name is not in the
denylist. -/
def claimKeep (line : List Char) : Bool :=
  !(stripL line).isEmpty && !((stripL line).head? == some '#') &&
    !(bareNameL line = "ast".data) && !(bareNameL line = "enum34".data)

theorem lineKept_eq_claimKeep (l : List Char) :
    lineKept l = (claimKeep l && !(bareNameL l).isEmpty) := by
  by_cases hb : bareNameL l = []
  · simp [lineKept, claimKeep, hb]
  · obtain ⟨hh, hs⟩ := bare_head l hb
    have hp : (bareNameL l).isEmpty = false := by
      cases hbl : bareNameL l with
      | nil => exact absurd hbl hb
      | cons a t => rfl
    have hq : (stripL l).isEmpty = false := by
      cases hsl : stripL l with
      | nil => exact absurd hsl hs
      | cons a t => rfl
    simp only [lineKept, claimKeep, hp, hq, hh, Bool.not_false, Bool.true_and, Bool.and_true]

theorem filter_lines_eq (lines : List (List Char)) :
    filter_lines lines = lines.filter lineKept := by
  induction lines with
  | nil => rfl
  | cons l rest ih =>
    by_cases h : lineKept l <;> simp [filter_lines, List.filter_cons, h, ih]

/- ## Claim theorems -/

/-- Claim C3: for every directory tree and any prior in-memory state,
running `analyze_repo` twice on the unchanged tree writes byte-identical
requirements files — the output of the second run equals that of the first, and the
output does not depend on the prior state at all (the method clears
`all_dependencies` on entry). -/
theorem analyze_repo_idempotent (s : ExtractorState) (repo : FsTree) :
    (analyze_repo (analyze_repo s repo).1 repo).2 = (analyze_repo s repo).2 ∧
    (∀ s' : ExtractorState, (analyze_repo s' repo).2 = (analyze_repo s repo).2) :=
  ⟨rfl, fun _ => rfl⟩

/-- Claim C4: for every input list of module names, the classifier output
is lexicographically sorted and duplicate-free, contains no entry from the
standard-library set or the blacklist, and classifying a singleton drawn
from either exclusion set yields the empty list. -/
theorem map_to_package_names_invariant (dependencies : List String) :
    (map_to_package_names dependencies).Sorted strLeP ∧
    (map_to_package_names dependencies).Nodup ∧
    (∀ p ∈ map_to_package_names dependencies,
      p ∉ STANDARD_LIBRARY ∧ p ∉ DEBUG_BLACKLIST) ∧
    (∀ m : String, m ∈ STANDARD_LIBRARY ∨ m ∈ DEBUG_BLACKLIST →
      map_to_package_names [m] = []) := by
  refine ⟨List.sorted_insertionSort strLeP _, ?_, ?_, ?_⟩
  · exact (List.perm_insertionSort strLeP _).symm.nodup (List.nodup_dedup _)
  · intro p hp
    have hp' : p ∈ ((dependencies.filter isExternal).map mapModule).dedup :=
      (List.perm_insertionSort strLeP _).mem_iff.mp hp
    rw [List.mem_dedup, List.mem_map] at hp'
    obtain ⟨m, hm, rfl⟩ := hp'
    rw [List.mem_filter] at hm
    exact mapModule_external m hm.2
  · intro m hm
    have hext : isExternal m = false := by
      rcases hm with hm | hm <;> simp [isExternal, hm]
    simp [map_to_package_names, List.filter, hext, List.insertionSort]

/-- Witness for C4 at concrete inputs: `classify {os} = []` by the last
conjunct, and the first output entry of `classify {numpy}` avoids both
exclusion tables by the membership conjunct. -/
theorem map_to_package_names_invariant_witness :
    map_to_package_names ["os"] = [] ∧
    ("numpy" ∉ STANDARD_LIBRARY ∧ "numpy" ∉ DEBUG_BLACKLIST) :=
  ⟨(map_to_package_names_invariant []).2.2.2 "os" (Or.inl (by decide)),
   (map_to_package_names_invariant ["numpy"]).2.2.1 "numpy" (by decide)⟩

/-- Claim C5: classifying the module-name set `{PIL, numpy, os, sys}` with
the standard mapping yields exactly `[Pillow, numpy]`, sorted, with `os`
and `sys` excluded. -/
theorem classify_pil_numpy_os_sys :
    map_to_package_names ["PIL", "numpy", "os", "sys"] = ["Pillow", "numpy"] := by
  decide

/-- Repository used to exhibit the divergence of C1: the root contains a
`pyproject.toml` and one Python source importing an external and a
standard-library module. -/
def pyprojectRepo : FsTree :=
  .dir "repo"
    [.file "pyproject.toml" "[project]\nname = \"demo\"\n",
     .file "app.py" "import numpy\nimport os\n"]

/-- Claim C1 (divergence exhibit): `analyze_repo` has no
project-configuration check at all — on a repository whose root contains
`pyproject.toml` it still scans, classifies, and writes the manifest
(content `numpy\n` here), and its only result channel is the written file:
no sentinel marker exists in `requirements_extract.py`, although the
caller `main.py` branches on one (`deps[0] == "pyproject"`). -/
theorem analyze_repo_ignores_pyproject :
    rootHasFile pyprojectRepo "pyproject.toml" = true ∧
    (analyze_repo ⟨[]⟩ pyprojectRepo).2 = "numpy\n" := by
  constructor
  · rfl
  · show write_requirements_content (map_to_package_names (scanRepo pyprojectRepo)) = "numpy\n"
    have hscan : scanRepo pyprojectRepo = ["numpy", "os"] := by
      simp only [scanRepo, pyprojectRepo, walkDir, walkSubdirs]
      decide
    rw [hscan]
    decide

/-- Claim C2 (counterexample): on Provisioner entry with an existing venv
directory whose deletion fails, the code makes exactly one deletion
attempt, logs a warning, and proceeds anyway — there is no retry loop and
exhaustion is not fatal. -/
theorem provisioner_cleanup_single_attempt :
    (provisioner_entry_cleanup true false).proceeds = true ∧
    (provisioner_entry_cleanup true false).deleteAttempts = 1 ∧
    (provisioner_entry_cleanup true false).warned = true := by
  decide

theorem cleanup_loop_all_fail (outcome : Nat → Bool) :
    ∀ n a, (∀ i, outcome i = false) → cleanup_loop outcome a (n + 1) = .error ()
  | 0, a, h => by simp [cleanup_loop, h a]
  | n + 1, a, h => by
    rw [cleanup_loop, if_neg (by simp [h a]), if_neg (by omega)]
    exact cleanup_loop_all_fail outcome n (a + 1) h

/-- Claim C2 (amended): the bounded retry loop that is fatal on exhaustion
lives in `_cleanup_single_dir` of the Downloader, not in the Provisioner:
with at least one allowed attempt, persistent failure exhausts the budget
and re-raises, while a first successful attempt returns `True`; the
entry cleanup of the Provisioner itself always proceeds after at most one deletion
attempt. -/
theorem cleanup_retry_lives_in_downloader (outcome : Nat → Bool) (n : Nat) (hn : 1 ≤ n) :
    ((∀ i, outcome i = false) → cleanup_single_dir true outcome n = .error ()) ∧
    (outcome 1 = true → cleanup_single_dir true outcome n = .ok true) ∧
    (∀ e ok : Bool, (provisioner_entry_cleanup e ok).proceeds = true ∧
      (provisioner_entry_cleanup e ok).deleteAttempts ≤ 1) := by
  obtain ⟨m, rfl⟩ : ∃ m, n = m + 1 := ⟨n - 1, by omega⟩
  refine ⟨?_, ?_, ?_⟩
  · intro h
    simpa [cleanup_single_dir] using cleanup_loop_all_fail outcome m 1 h
  · intro h
    simp [cleanup_single_dir, cleanup_loop, h]
  · intro e ok
    cases e <;> cases ok <;> simp [provisioner_entry_cleanup]

/-- Witness for the amended C2 theorem: five always-failing attempts exhaust
the default retry budget and re-raise. -/
theorem cleanup_retry_lives_in_downloader_witness :
    cleanup_single_dir true (fun _ => false) 5 = .error () :=
  (cleanup_retry_lives_in_downloader (fun _ => false) 5 (by decide)).1 (fun _ => rfl)

/-- Claim C9 (counterexample): when the executable is missing, the raised
failure is byte-for-byte the same `RuntimeError` as for a generic non-zero
exit of the same step — the two failure modes are not distinct as raised. -/
theorem execute_subprocess_same_runtime_error :
    (execute_subprocess ["python", "-m", "venv"] "Virtual environment creation"
        (.fileNotFound "python")).raisedRuntimeError =
      (execute_subprocess ["python", "-m", "venv"] "Virtual environment creation"
        (.calledProcessError "boom")).raisedRuntimeError :=
  rfl

/-- Claim C9 (amended): both the missing-executable case and the
non-zero-exit case raise the same `RuntimeError` message; the two cases are
distinguished only in the printed stderr diagnostics, where the
missing-executable case emits a single line tagged `[FATAL]` naming the
missing executable while the non-zero-exit case emits `[ERROR]` lines. -/
theorem execute_subprocess_raise_vs_stderr (command : List String)
    (error_message m stderr : String) :
    (execute_subprocess command error_message (.fileNotFound m)).raisedRuntimeError
        = some (error_message ++ " failed.") ∧
    (execute_subprocess command error_message (.calledProcessError stderr)).raisedRuntimeError
        = some (error_message ++ " failed.") ∧
    (execute_subprocess command error_message (.fileNotFound m)).stderrLines ≠
      (execute_subprocess command error_message (.calledProcessError stderr)).stderrLines ∧
    ((execute_subprocess command error_message (.fileNotFound m)).stderrLines.head?.map
      (fun s => s.data.take 7)) = some "[FATAL]".data ∧
    ((execute_subprocess command error_message (.calledProcessError stderr)).stderrLines.head?.map
      (fun s => s.data.take 7)) = some "[ERROR]".data := by
  refine ⟨rfl, rfl, ?_, ?_, ?_⟩
  · intro h
    have hlen := congrArg List.length h
    simp [execute_subprocess] at hlen
  · show some (("[FATAL] System executable not found (e.g. python): " ++ m).data.take 7) = _
    rw [String.data_append, List.take_append_of_le_length (by decide)]
    rfl
  · show some (("[ERROR] " ++ error_message ++ " (External command failed).").data.take 7) = _
    rw [String.data_append, String.data_append, List.append_assoc,
      List.take_append_of_le_length (by decide)]
    rfl

/-- Witness for the amended C9 theorem at a concrete step and command. -/
theorem execute_subprocess_raise_vs_stderr_witness :
    (execute_subprocess ["git", "clone"] "Upgrade of core build tools"
      (.fileNotFound "x")).raisedRuntimeError =
      some ("Upgrade of core build tools" ++ " failed.") :=
  (execute_subprocess_raise_vs_stderr ["git", "clone"] "Upgrade of core build tools" "x" "y").1

/-- Claim C6: a line `import pkg.sub...` or `from pkg.sub...` contributes
exactly the first dotted segment `pkg`, and a relative-import line
`from . import ...` contributes no module name (for any module segment
`pkg` made of identifier characters and any tail `rest`). -/
theorem extract_module_name_dotted (pkg rest : String)
    (hne : pkg.data ≠ []) (hid : ∀ c ∈ pkg.data, isIdentChar c = true) :
    extract_module_name ("import " ++ pkg ++ "." ++ rest) = some pkg ∧
    extract_module_name ("from " ++ pkg ++ "." ++ rest) = some pkg ∧
    extract_module_name ("from . import " ++ rest) = none := by
  have hstop : ∀ x : Char, ('.' :: rest.data).head? = some x → isIdentChar x = false := by
    intro x hx
    rw [List.head?_cons] at hx
    injection hx with e
    subst e
    decide
  refine ⟨?_, ?_, ?_⟩
  · have hd : ("import " ++ pkg ++ "." ++ rest).data
        = "import".data ++ ' ' :: (pkg.data ++ '.' :: rest.data) := by
      rw [String.data_append, String.data_append, String.data_append,
        List.append_assoc, List.append_assoc]
      rfl
    have h1 : matchKeywordName "import".data ("import " ++ pkg ++ "." ++ rest).data
        = some pkg := by
      rw [hd]
      exact matchKeywordName_exact "import".data pkg.data ('.' :: rest.data) ' '
        (by decide) (by decide) (by decide) hne hid hstop
    simp only [extract_module_name, h1]
  · have hd : ("from " ++ pkg ++ "." ++ rest).data
        = "from".data ++ ' ' :: (pkg.data ++ '.' :: rest.data) := by
      rw [String.data_append, String.data_append, String.data_append,
        List.append_assoc, List.append_assoc]
      rfl
    have h0 : matchKeywordName "import".data ("from " ++ pkg ++ "." ++ rest).data = none := rfl
    have h1 : matchKeywordName "from".data ("from " ++ pkg ++ "." ++ rest).data
        = some pkg := by
      rw [hd]
      exact matchKeywordName_exact "from".data pkg.data ('.' :: rest.data) ' '
        (by decide) (by decide) (by decide) hne hid hstop
    simp only [extract_module_name, h0, h1]
  · rfl

/-- Witness for C6 at a concrete dotted import. -/
theorem extract_module_name_dotted_witness :
    extract_module_name ("import " ++ "pkg" ++ "." ++ "sub") = some "pkg" ∧
    extract_module_name ("from " ++ "pkg" ++ "." ++ "sub") = some "pkg" ∧
    extract_module_name ("from . import " ++ "sub") = none :=
  extract_module_name_dotted "pkg" "sub" (by decide) (by decide)

/-- First whitespace-delimited token of a line, after optional leading
whitespace (used to state where the import patterns can match). -/
def firstToken (line : String) : String :=
  ⟨(line.data.dropWhile isPySpace).takeWhile (fun c => !isPySpace c)⟩

/-- Claim C10: the extraction patterns match only at the start of a line —
whenever a line contributes a module name, the first token of the line is
exactly `import` or exactly `from`; contrapositively, a line whose first
token is neither (a commented-out import, or an `import` appearing
mid-line) contributes nothing. -/
theorem extract_module_name_anchored (line m : String)
    (h : extract_module_name line = some m) :
    firstToken line = "import" ∨ firstToken line = "from" := by
  unfold extract_module_name at h
  cases hi : matchKeywordName "import".data line.data with
  | some m' =>
    left
    unfold firstToken
    rw [matchKeywordName_first_token "import".data line.data m' (by decide) hi]
  | none =>
    rw [hi] at h
    right
    unfold firstToken
    rw [matchKeywordName_first_token "from".data line.data m (by decide) h]

/-- Witness for C10: the first token of a plain import line is one of the two
keywords. -/
theorem extract_module_name_anchored_witness :
    firstToken "  import os" = "import" ∨ firstToken "  import os" = "from" :=
  extract_module_name_anchored "  import os" "os" (by decide)

/-- Claim C7: the Requirement Filter never writes to the input manifest —
every write targets the sibling file `requirements_filtered.txt` in the
directory of the manifest; a missing manifest is returned unchanged with
nothing written; and on a read or write error the original manifest path
is returned with nothing written. -/
theorem filter_requirements_preserves_manifest (requirements_file : FileLoc)
    (content : Option String) (readOk writeOk : Bool)
    (hname : requirements_file.base ≠ "requirements_filtered.txt") :
    (∀ w ∈ (filter_requirements requirements_file content readOk writeOk).2,
      w.1 ≠ requirements_file ∧ w.1.dir = requirements_file.dir ∧
      w.1.base = "requirements_filtered.txt") ∧
    (content = none →
      filter_requirements requirements_file content readOk writeOk
        = (requirements_file, [])) ∧
    (readOk = false ∨ writeOk = false →
      (filter_requirements requirements_file content readOk writeOk).1
        = requirements_file ∧
      (filter_requirements requirements_file content readOk writeOk).2 = []) := by
  cases content with
  | none =>
    exact ⟨fun w hw => absurd hw (List.not_mem_nil w), fun _ => rfl, fun _ => ⟨rfl, rfl⟩⟩
  | some text =>
    cases readOk with
    | false =>
      exact ⟨fun w hw => absurd hw (List.not_mem_nil w),
        fun h => by simp at h, fun _ => ⟨rfl, rfl⟩⟩
    | true =>
      cases writeOk with
      | false =>
        exact ⟨fun w hw => absurd hw (List.not_mem_nil w),
          fun h => by simp at h, fun _ => ⟨rfl, rfl⟩⟩
      | true =>
        refine ⟨?_, fun h => by simp at h, ?_⟩
        · intro w hw
          have hw' : w = (⟨requirements_file.dir, "requirements_filtered.txt"⟩,
              (⟨List.intercalate "\n".data (filter_lines (splitLinesL text.data))⟩ : String)) :=
            List.mem_singleton.mp hw
          subst hw'
          exact ⟨fun he => hname ((congrArg FileLoc.base he).symm), rfl, rfl⟩
        · intro h
          rcases h with h | h <;> exact absurd h (by decide)

/-- Witness for C7: a failing read on the pipeline manifest path returns
the original path. -/
theorem filter_requirements_preserves_manifest_witness :
    (filter_requirements ⟨"tmp", "requirements.txt"⟩ (some "numpy\nast\n") false true).1 =
      (⟨"tmp", "requirements.txt"⟩ : FileLoc) :=
  ((filter_requirements_preserves_manifest ⟨"tmp", "requirements.txt"⟩
      (some "numpy\nast\n") false true (by decide)).2.2 (Or.inl rfl)).1

/-- Claim C8 (counterexample): on the one-line manifest `=foo` the filter in
the code and the survivor description in the claim disagree — the line is neither
blank nor a comment and its bare name (empty) is not in the denylist, so
the claim keeps it, but the code drops every line whose bare name is
empty. -/
theorem filter_lines_claim_counterexample :
    filter_lines ["=foo".data] ≠ List.filter claimKeep ["=foo".data] := by
  decide

/-- Claim C8 (amended): the lines of the filtered manifest are exactly the
non-blank, non-comment lines of the original whose bare package name is
non-empty and not in the denylist `{ast, enum34}`, preserved in their
original order (a sublist of the input). -/
theorem filter_lines_amended (lines : List (List Char)) :
    filter_lines lines
      = lines.filter (fun l => claimKeep l && !(bareNameL l).isEmpty) ∧
    List.Sublist (filter_lines lines) lines := by
  constructor
  · rw [filter_lines_eq]
    congr 1
    funext l
    exact lineKept_eq_claimKeep l
  · rw [filter_lines_eq]
    exact List.filter_sublist _

/-- Witness for C3 on a concrete one-file repository with stale prior
state. -/
theorem analyze_repo_idempotent_witness :
    (analyze_repo (analyze_repo ⟨["stale"]⟩ (.dir "r" [.file "a.py" "import numpy\n"])).1
        (.dir "r" [.file "a.py" "import numpy\n"])).2
      = (analyze_repo ⟨["stale"]⟩ (.dir "r" [.file "a.py" "import numpy\n"])).2 :=
  (analyze_repo_idempotent ⟨["stale"]⟩ (.dir "r" [.file "a.py" "import numpy\n"])).1

/-- Witness for the amended C8 theorem on a concrete manifest. -/
theorem filter_lines_amended_witness :
    filter_lines ["numpy".data, [], "# note".data, "ast".data, "pandas>=1.0".data]
      = List.filter (fun l => claimKeep l && !(bareNameL l).isEmpty)
          ["numpy".data, [], "# note".data, "ast".data, "pandas>=1.0".data] :=
  (filter_lines_amended ["numpy".data, [], "# note".data, "ast".data, "pandas>=1.0".data]).1
